import Mathlib

/-!
Shallow embedding of the ApprovalGuard server (src/server.js): the
approval-discovery pipeline, spender-profile resolution, the risk-scoring
engine, and the revocation-calldata builder, together with theorems about
the properties the design document states for them.

External collaborators (the JSON-RPC provider, the Etherscan verification
service, the two startup-loaded JSON registries, and the wallet) are
modelled as explicit environment records of pure functions; the code under
verification is the control flow and arithmetic of server.js itself.
-/

namespace ApprovalGuard

/-- JS `x || d` on a number-or-undefined value: the default `d` is taken both
when the lookup produced nothing (`undefined`) and when it produced the
number `0`, because `0` is falsy in JavaScript. -/
def jsOrNat (x : Option Nat) (d : Nat) : Nat :=
  match x with
  | some v => if v = 0 then d else v
  | none => d

/-- JS `String.prototype.padStart(n, c)` with a single-character pad. -/
def padStart (s : String) (n : Nat) (c : Char) : String :=
  String.mk (List.replicate (n - s.length) c) ++ s

/-- JS `String.prototype.slice(n)` (drop the first `n` characters). -/
def jsSlice (s : String) (n : Nat) : String :=
  String.mk (s.data.drop n)

/-- JS `String.prototype.toLowerCase()`, as a character-wise lowercase map
(the addresses it is applied to are ASCII). -/
def jsToLower (s : String) : String :=
  String.mk (s.data.map Char.toLower)

/-- Whether the character list `l` starts with `pat`. -/
def startsWithList : List Char → List Char → Bool
  | _, [] => true
  | [], _ :: _ => false
  | a :: as, b :: bs => a = b && startsWithList as bs

/-- Whether the character list contains `pat` as a contiguous run
(JS `String.prototype.includes`). -/
def containsList (pat : List Char) : List Char → Bool
  | [] => startsWithList [] pat
  | l@(_ :: rest) => startsWithList l pat || containsList pat rest

/-- JS `s.includes(pat)`. -/
def jsIncludes (s pat : String) : Bool :=
  containsList pat.data s.data

/-- One record of the exploit registry (`exploit_database.json` schema). -/
structure ExploitRecord where
  name : String
  date : String
  affectedContracts : List String
  deriving Repr, DecidableEq

/-- The profile object produced by `getSpenderDetails` in server.js. -/
structure SpenderDetails where
  name : String
  description : String
  isVerified : Bool
  riskLevel : String
  category : String
  risks : List String
  benefits : List String
  documentation : String
  audited : Bool
  deriving Repr, DecidableEq

/-- One entry of the `riskFactors` array built by `calculateRiskScore`. -/
structure RiskFactor where
  name : String
  value : String
  contribution : Nat
  deriving Repr, DecidableEq

/-- The `{score, factors}` object returned by `calculateRiskScore`. -/
structure RiskAssessment where
  score : Nat
  factors : List RiskFactor
  deriving Repr, DecidableEq

/-- The `maxUint256` constant of `calculateRiskScore`:
`BigInt('115792089237316195423570985008687907853269984665640564039457584007913129639935')`. -/
def maxUint256 : Nat :=
  115792089237316195423570985008687907853269984665640564039457584007913129639935

/-- The `categoryRiskMap` object literal of `calculateRiskScore`. -/
def categoryRiskMap (category : String) : Option Nat :=
  if category = "DEX" then some 4
  else if category = "Lending" then some 12
  else if category = "Staking" then some 8
  else if category = "Bridge" then some 15
  else if category = "NFT" then some 20
  else if category = "Other" then some 20
  else if category = "Unknown" then some 25
  else none

/-- The `riskLevelMap` object literal of `calculateRiskScore`. -/
def riskLevelMap (riskLevel : String) : Option Nat :=
  if riskLevel = "low" then some 0
  else if riskLevel = "medium" then some 10
  else if riskLevel = "high" then some 20
  else if riskLevel = "unknown" then some 15
  else none

/-- Factor 1 contribution: `audited` 0, else `isVerified` 12, else 25. -/
def auditScore (sd : SpenderDetails) : Nat :=
  if sd.audited then 0 else if sd.isVerified then 12 else 25

/-- Factor 1 symbolic value. -/
def auditValue (sd : SpenderDetails) : String :=
  if sd.audited then "Audited" else if sd.isVerified then "Verified" else "Not Audited"

/-- Factor 2 contribution: `categoryRiskMap[spenderDetails.category] || 20`. -/
def categoryRisk (category : String) : Nat :=
  jsOrNat (categoryRiskMap category) 20

/-- Factor 3 contribution: `riskLevelMap[spenderDetails.riskLevel] || 15`.
Because `riskLevelMap['low']` is `0` and `0` is falsy, `||` replaces it
with the fallback 15. -/
def riskLevelScore (riskLevel : String) : Nat :=
  jsOrNat (riskLevelMap riskLevel) 15

/-- Factor 4 contribution from the allowance-vs-balance comparison chain. -/
def allowanceScore (allowance userBalance : Nat) : Nat :=
  if allowance = maxUint256 then 20
  else if allowance > userBalance * 10 then 15
  else if allowance > userBalance then 10
  else 5

/-- Factor 4 symbolic value. -/
def allowanceValue (allowance userBalance : Nat) : String :=
  if allowance = maxUint256 then "Unlimited"
  else if allowance > userBalance * 10 then "Very High (>10x balance)"
  else if allowance > userBalance then "High (>balance)"
  else "Reasonable"

/-- Factor 5 contribution: flat 15 when any exploit hit exists. -/
def exploitScore (exploits : List ExploitRecord) : Nat :=
  if exploits.length > 0 then 15 else 0

/-- Factor 5 symbolic value. -/
def exploitValue (exploits : List ExploitRecord) : String :=
  if exploits.length > 0 then toString exploits.length ++ " exploit(s) found" else "None"

/-- The function `calculateRiskScore(spenderDetails, allowance, userBalance, exploits)`:
the five factor contributions are accumulated into `riskScore`, each factor
is pushed onto `riskFactors` in fixed order, and the score is capped with
`Math.min(riskScore, 100)`.  The allowance and balance arguments are the
decimal strings of uint256 chain reads, modelled directly as naturals. -/
def calculateRiskScore (spenderDetails : SpenderDetails) (allowance userBalance : Nat)
    (exploits : List ExploitRecord) : RiskAssessment :=
  let riskScore :=
    auditScore spenderDetails + categoryRisk spenderDetails.category +
      riskLevelScore spenderDetails.riskLevel + allowanceScore allowance userBalance +
      exploitScore exploits
  { score := min riskScore 100
    factors :=
      [ { name := "Audit Status", value := auditValue spenderDetails,
          contribution := auditScore spenderDetails },
        { name := "Category", value := spenderDetails.category,
          contribution := categoryRisk spenderDetails.category },
        { name := "Risk Level", value := spenderDetails.riskLevel,
          contribution := riskLevelScore spenderDetails.riskLevel },
        { name := "Allowance", value := allowanceValue allowance userBalance,
          contribution := allowanceScore allowance userBalance },
        { name := "Known Exploits", value := exploitValue exploits,
          contribution := exploitScore exploits } ] }

/-- The function `checkForExploits(spenderAddress)`: lowercase lookup in the exploit
registry map; absence yields the empty list. -/
def checkForExploits (exploitDatabase : String → Option (List ExploitRecord))
    (spenderAddress : String) : List ExploitRecord :=
  (exploitDatabase (jsToLower spenderAddress)).getD []

/-- One entry of the curated contract registry (`contract_database.json`
schema), as stored in the lowercase-keyed `contractDatabase` map. -/
structure DbContract where
  name : String
  description : String
  verified : Bool
  riskLevel : String
  category : String
  risks : List String
  benefits : List String
  documentation : String
  audited : Bool
  deriving Repr, DecidableEq

/-- The fields of `response.data.result[0]` that `getSpenderDetails` reads
from the Etherscan `getsourcecode` response.  An empty string stands for a
missing/empty (falsy) field, exactly as in the JSON payload. -/
structure EtherscanContract where
  ContractName : String
  SourceCode : String
  deriving Repr, DecidableEq

/-- Environment of `getSpenderDetails`: the startup-loaded contract registry
(keyed by lowercase address) and the external Etherscan lookup.
`Except.error` is a thrown/failed HTTP request; `Except.ok none` is a
response whose `result` array is missing or empty. -/
structure SpenderEnv where
  contractDatabase : String → Option DbContract
  etherscan : String → Except String (Option EtherscanContract)

/-- The `descriptions` object literal of `getApprovalDescription`, in
insertion order. -/
def descriptions : List (String × String) :=
  [ ("UniswapV3Router", "Can swap your tokens on Uniswap"),
    ("UniswapV2Router", "Can swap your tokens on Uniswap"),
    ("SwapRouter", "Can swap your tokens"),
    ("Seaport", "Can transfer your NFTs and tokens for trading"),
    ("CurveStableSwap", "Can use your tokens for swaps on Curve"),
    ("LidoStETH", "Can stake your ETH for stETH"),
    ("WETH9", "Can wrap/unwrap your ETH"),
    ("MasterChef", "Can use your tokens in liquidity pools"),
    ("AavePool", "Can use your tokens as collateral"),
    ("CompoundComptroller", "Can use your tokens as collateral"),
    ("MakerDAO", "Can use your tokens as collateral") ]

/-- The function `getApprovalDescription(contractName)`: first substring match against the
canned table wins; no match falls back to the generic text. -/
def getApprovalDescription (contractName : String) : String :=
  match descriptions.find? (fun kv => jsIncludes contractName kv.1) with
  | some kv => kv.2
  | none => "This contract can transfer your tokens."

/-- The pessimistic default profile returned at the end of
`getSpenderDetails`. -/
def defaultSpenderDetails (spenderAddress : String) : SpenderDetails :=
  { name := "Unknown Contract"
    description := "This contract can transfer your tokens."
    isVerified := false
    riskLevel := "high"
    category := "Unknown"
    risks := ["Could be a scam or malicious contract", "No audit information available"]
    benefits := []
    documentation := "https://etherscan.io/address/" ++ spenderAddress
    audited := false }

/-- The function `getSpenderDetails(spenderAddress)`: local registry lookup by lowercase
address, else Etherscan `getsourcecode` (a falsy `ContractName` becomes
"Unknown Contract"; `isVerified` is the truthiness of `SourceCode`), else —
on a thrown request or an empty result — the pessimistic default. -/
def getSpenderDetails (env : SpenderEnv) (spenderAddress : String) : SpenderDetails :=
  let normalizedAddress := jsToLower spenderAddress
  match env.contractDatabase normalizedAddress with
  | some dbContract =>
      { name := dbContract.name
        description := dbContract.description
        isVerified := dbContract.verified
        riskLevel := dbContract.riskLevel
        category := dbContract.category
        risks := dbContract.risks
        benefits := dbContract.benefits
        documentation := dbContract.documentation
        audited := dbContract.audited }
  | none =>
    match env.etherscan spenderAddress with
    | Except.ok (some contract) =>
        let name := if contract.ContractName = "" then "Unknown Contract"
                    else contract.ContractName
        { name := name
          description := getApprovalDescription name
          isVerified := contract.SourceCode ≠ ""
          riskLevel := "unknown"
          category := "Other"
          risks := ["Verify contract details before approving"]
          benefits := []
          documentation := "https://etherscan.io/address/" ++ spenderAddress
          audited := false }
    | Except.ok none => defaultSpenderDetails spenderAddress
    | Except.error _ => defaultSpenderDetails spenderAddress

/-- An approval candidate: the `{ tokenAddress, spender }` value stored in
the `activeApprovals` map. -/
structure Candidate where
  tokenAddress : String
  spender : String
  deriving Repr, DecidableEq

/-- One raw log returned by `provider.getLogs`: its emitting contract
address and the outcome of `iface.parseLog` (`none` when parsing throws and
the log is skipped). -/
structure LogEntry where
  address : String
  parsedSpender : Option String
  deriving Repr, DecidableEq

/-- The template-literal map key `` `${tokenAddress}-${spender}` ``. -/
def approvalKey (tokenAddress spender : String) : String :=
  tokenAddress ++ "-" ++ spender

/-- JS `Map.prototype.set`: replace in place when the key exists, append
otherwise (JS `Map` preserves insertion order). -/
def mapSet : List (String × Candidate) → String → Candidate → List (String × Candidate)
  | [], k, v => [(k, v)]
  | (k0, v0) :: rest, k, v =>
      if k0 = k then (k, v) :: rest else (k0, v0) :: mapSet rest k v

/-- The `for (const log of logs)` loop body applied to one log. -/
def scanStep (m : List (String × Candidate)) (log : LogEntry) : List (String × Candidate) :=
  match log.parsedSpender with
  | some spender => mapSet m (approvalKey log.address spender) ⟨log.address, spender⟩
  | none => m

/-- The deduplication loop over the log list, threading the map. -/
def scanLogsAux (m : List (String × Candidate)) : List LogEntry → List (String × Candidate)
  | [] => m
  | log :: rest => scanLogsAux (scanStep m log) rest

/-- The full `activeApprovals` map built from the logs of one scan. -/
def scanLogs (logs : List LogEntry) : List (String × Candidate) :=
  scanLogsAux [] logs

/-- Token metadata fetched concurrently per candidate: `name()`, `symbol()`,
`decimals()` and `balanceOf(walletAddress)`. -/
structure TokenMeta where
  name : String
  symbol : String
  decimals : Nat
  balance : Nat
  deriving Repr, DecidableEq

/-- The collaborator `ethers.formatUnits(value, decimals)`: the uint256 value rendered as a
decimal string with `decimals` fractional digits, trailing zeros trimmed
down to at least one fractional digit. -/
def formatUnits (value : Nat) (decimals : Nat) : String :=
  let p := 10 ^ decimals
  let fracStr := padStart (toString (value % p)) decimals '0'
  let trimmed := String.mk (fracStr.data.reverse.dropWhile (fun c => c = '0')).reverse
  toString (value / p) ++ "." ++ (if trimmed = "" then "0" else trimmed)

/-- The response DTO built per surviving candidate in the
`/api/approvals` handler. -/
structure ApprovalResult where
  tokenName : String
  tokenSymbol : String
  tokenAddress : String
  spender : String
  allowance : String
  userBalance : String
  decimals : Nat
  spenderName : String
  spenderDescription : String
  isVerified : Bool
  riskLevel : String
  category : String
  risks : List String
  benefits : List String
  documentation : String
  audited : Bool
  riskScore : Nat
  riskFactors : List RiskFactor
  exploits : List ExploitRecord
  hasKnownExploit : Bool
  deriving Repr, DecidableEq

/-- The full external environment of the `/api/approvals` handler:
`ethers.isAddress`, `provider.getLogs`, the per-token contract reads, the
spender-profile collaborators, and the exploit registry map. -/
structure Env where
  isAddress : String → Bool
  getLogs : String → Except String (List LogEntry)
  allowanceOf : String → String → String → Except String Nat
  tokenMeta : String → String → Except String TokenMeta
  spenderEnv : SpenderEnv
  exploitDatabase : String → Option (List ExploitRecord)

/-- The external calls the handler issues, in order: the `getLogs` query and
the read-only contract calls made per candidate. -/
inductive ExtCall where
  | logQuery (owner : String)
  | allowanceCall (token owner spender : String)
  | metaCall (token owner : String)
  deriving Repr, DecidableEq

/-- The per-candidate async closure of the handler: re-query the current
allowance (a thrown call drops the candidate), drop the candidate when the
allowance is zero, otherwise fetch metadata and balance (a thrown call
drops the candidate), resolve the spender profile and exploits, score, and
build the DTO.  Also records the contract calls it made. -/
def processApproval (env : Env) (walletAddress : String) (c : Candidate) :
    Option ApprovalResult × List ExtCall :=
  match env.allowanceOf c.tokenAddress walletAddress c.spender with
  | Except.error _ => (none, [ExtCall.allowanceCall c.tokenAddress walletAddress c.spender])
  | Except.ok allowance =>
    if allowance > 0 then
      match env.tokenMeta c.tokenAddress walletAddress with
      | Except.error _ =>
          (none, [ExtCall.allowanceCall c.tokenAddress walletAddress c.spender,
                  ExtCall.metaCall c.tokenAddress walletAddress])
      | Except.ok m =>
          let spenderDetails := getSpenderDetails env.spenderEnv c.spender
          let exploits := checkForExploits env.exploitDatabase c.spender
          let riskScoring := calculateRiskScore spenderDetails allowance m.balance exploits
          (some { tokenName := m.name
                  tokenSymbol := m.symbol
                  tokenAddress := c.tokenAddress
                  spender := c.spender
                  allowance := formatUnits allowance m.decimals
                  userBalance := formatUnits m.balance m.decimals
                  decimals := m.decimals
                  spenderName := spenderDetails.name
                  spenderDescription := spenderDetails.description
                  isVerified := spenderDetails.isVerified
                  riskLevel := spenderDetails.riskLevel
                  category := spenderDetails.category
                  risks := spenderDetails.risks
                  benefits := spenderDetails.benefits
                  documentation := spenderDetails.documentation
                  audited := spenderDetails.audited
                  riskScore := riskScoring.score
                  riskFactors := riskScoring.factors
                  exploits := exploits
                  hasKnownExploit := exploits.length > 0 },
           [ExtCall.allowanceCall c.tokenAddress walletAddress c.spender,
            ExtCall.metaCall c.tokenAddress walletAddress])
    else (none, [ExtCall.allowanceCall c.tokenAddress walletAddress c.spender])

/-- The list `(await Promise.all(approvalPromises)).filter(Boolean)`: the surviving
DTOs of a candidate list. -/
def detailedApprovals (env : Env) (walletAddress : String)
    (candidates : List Candidate) : List ApprovalResult :=
  (candidates.map (fun c => (processApproval env walletAddress c).1)).filterMap id

/-- The parsed JSON body of a POST to `/api/approvals`: `walletAddress`
(absent field ↦ `none`) and the optional numeric `chainId`. -/
structure ApprovalsRequest where
  walletAddress : Option String
  chainId : Option Int
  deriving Repr, DecidableEq

/-- The HTTP outcomes of the handler: a 400 client error, a 500 from the
outer catch, or the success payload. -/
inductive ApiResponse where
  | badRequest (error : String)
  | serverError (error : String)
  | ok (count : Nat) (approvals : List ApprovalResult)
  deriving Repr, DecidableEq

/-- The `/api/approvals` handler: validation (`!walletAddress ||
!ethers.isAddress(walletAddress)` and `chainId && chainId !== 1`, with JS
truthiness: the empty string and the number 0 are falsy), then the log
query, deduplication, and per-candidate resolution.  Returns the response
together with the list of external calls issued. -/
def approvalsHandler (env : Env) (req : ApprovalsRequest) : ApiResponse × List ExtCall :=
  match req.walletAddress with
  | none => (ApiResponse.badRequest "Invalid Ethereum address", [])
  | some walletAddress =>
    if walletAddress = "" || !env.isAddress walletAddress then
      (ApiResponse.badRequest "Invalid Ethereum address", [])
    else if (match req.chainId with
             | some chainId => chainId ≠ 0 && chainId ≠ 1
             | none => false) then
      (ApiResponse.badRequest "Currently only Ethereum mainnet is supported", [])
    else
      match env.getLogs walletAddress with
      | Except.error msg => (ApiResponse.serverError msg, [ExtCall.logQuery walletAddress])
      | Except.ok logs =>
        let candidates := (scanLogs logs).map Prod.snd
        let results := detailedApprovals env walletAddress candidates
        (ApiResponse.ok results.length results,
         ExtCall.logQuery walletAddress ::
           (candidates.map (fun c => (processApproval env walletAddress c).2)).flatten)

/-- The `eth_sendTransaction` params object built by `revokeApproval`. -/
structure EthTx where
  fromAddress : String
  toAddress : String
  data : String
  deriving Repr, DecidableEq

/-- The revocation calldata built in `revokeApproval`:
`'0x095ea7b3' + spenderAddress.slice(2).padStart(64, '0') +
'0'.padStart(64, '0')`. -/
def buildRevokeData (spenderAddress : String) : String :=
  "0x095ea7b3" ++ padStart (jsSlice spenderAddress 2) 64 '0' ++ padStart "0" 64 '0'

/-- The client-side `revokeApproval(tokenAddress, spenderAddress,
walletAddress)` function: bail out when no wallet is connected or when the
connected address differs (case-insensitively) from the owner of the
approval; only then build the calldata and hand the transaction to the
wallet. -/
def revokeApproval (connectedAddress : Option String)
    (tokenAddress spenderAddress walletAddress : String) : Option EthTx :=
  match connectedAddress with
  | none => none
  | some connected =>
    if jsToLower connected ≠ jsToLower walletAddress then none
    else some { fromAddress := connected
                toAddress := tokenAddress
                data := buildRevokeData spenderAddress }

/-! ## Helper lemmas -/

theorem auditScore_le (sd : SpenderDetails) : auditScore sd ≤ 25 := by
  unfold auditScore; repeat' split
  all_goals omega

theorem categoryRisk_le (category : String) : categoryRisk category ≤ 25 := by
  unfold categoryRisk categoryRiskMap; repeat' split
  all_goals simp [jsOrNat]

theorem riskLevelScore_le (riskLevel : String) : riskLevelScore riskLevel ≤ 20 := by
  unfold riskLevelScore riskLevelMap; repeat' split
  all_goals simp [jsOrNat]

theorem allowanceScore_le (allowance userBalance : Nat) :
    allowanceScore allowance userBalance ≤ 20 := by
  unfold allowanceScore; repeat' split
  all_goals omega

theorem exploitScore_le (exploits : List ExploitRecord) : exploitScore exploits ≤ 15 := by
  unfold exploitScore; split <;> omega

theorem calculateRiskScore_factor_sum (sd : SpenderDetails) (allowance userBalance : Nat)
    (exploits : List ExploitRecord) :
    ((calculateRiskScore sd allowance userBalance exploits).factors.map
        (fun f => f.contribution)).sum =
      auditScore sd + categoryRisk sd.category + riskLevelScore sd.riskLevel +
        allowanceScore allowance userBalance + exploitScore exploits := by
  simp [calculateRiskScore]
  omega

/-! ## Claim theorems -/

/-- The profile of spec Scenario A: audited, category "DEX", declared risk
level "low". -/
def scenarioAProfile : SpenderDetails :=
  { name := "Scenario A"
    description := ""
    isVerified := true
    riskLevel := "low"
    category := "DEX"
    risks := []
    benefits := []
    documentation := ""
    audited := true }

/-- C1: the claim states Scenario A (audited, "DEX", "low", max-uint256
allowance, no exploits) yields factor contributions [0, 4, 0, 20, 0] and
score 24.  The code instead yields [0, 4, 15, 20, 0] and score 39 for every
user balance: `riskLevelMap['low']` is 0, which is falsy, so
`riskLevelMap[riskLevel] || 15` replaces it with 15. -/
theorem calculateRiskScore_scenarioA_eval :
    ∀ userBalance : Nat,
      ((calculateRiskScore scenarioAProfile maxUint256 userBalance []).factors.map
          (fun f => f.contribution)) = [0, 4, 15, 20, 0] ∧
      (calculateRiskScore scenarioAProfile maxUint256 userBalance []).score = 39 :=
  fun _ => ⟨rfl, rfl⟩

/-- C2: the claim states the declared-risk-level factor contributes 0 for
"low", 10 for "medium", 20 for "high", 15 for "unknown" and 15 otherwise.
The code agrees on every level except "low", which contributes 15 rather
than 0 because `0 || 15` evaluates to 15 in JavaScript. -/
theorem riskLevelScore_eval :
    riskLevelScore "low" = 15 ∧
    riskLevelScore "medium" = 10 ∧
    riskLevelScore "high" = 20 ∧
    riskLevelScore "unknown" = 15 ∧
    riskLevelScore "something-else" = 15 ∧
    ((calculateRiskScore scenarioAProfile 1 1 []).factors.map
        (fun f => f.contribution)).get? 2 = some (riskLevelScore "low") := by
  refine ⟨rfl, rfl, rfl, rfl, rfl, rfl⟩

/-- C3: for every profile, allowance, balance and exploit list the score is
the sum of the five recorded factor contributions saturated at 100 (never
rescaled), hence always in [0, 100]; the raw sum itself never exceeds
105. -/
theorem calculateRiskScore_score_bounds :
    ∀ (sd : SpenderDetails) (allowance userBalance : Nat) (exploits : List ExploitRecord),
      (calculateRiskScore sd allowance userBalance exploits).score =
        min (((calculateRiskScore sd allowance userBalance exploits).factors.map
            (fun f => f.contribution)).sum) 100 ∧
      (calculateRiskScore sd allowance userBalance exploits).score ≤ 100 ∧
      (((calculateRiskScore sd allowance userBalance exploits).factors.map
          (fun f => f.contribution)).sum) ≤ 105 := by
  intro sd allowance userBalance exploits
  have hsum := calculateRiskScore_factor_sum sd allowance userBalance exploits
  refine ⟨?_, ?_, ?_⟩
  · rw [hsum]; rfl
  · exact Nat.min_le_right _ _
  · rw [hsum]
    have h1 := auditScore_le sd
    have h2 := categoryRisk_le sd.category
    have h3 := riskLevelScore_le sd.riskLevel
    have h4 := allowanceScore_le allowance userBalance
    have h5 := exploitScore_le exploits
    omega

/-- C4: the revocation calldata is the 4-byte `approve(address,uint256)`
selector `0x095ea7b3`, then the spender address (its 40 hex digits)
left-padded with zeros to 32 bytes, then 32 zero bytes; in particular for
spender 0xAAAAAAAAAAAAAAAAAAAAAAAAAAAAAAAAAAAAAAAA it is exactly that
concatenation. -/
theorem buildRevokeData_spec :
    (∀ h : String, h.length = 40 →
      buildRevokeData ("0x" ++ h) =
        "0x095ea7b3" ++ String.mk (List.replicate 24 '0') ++ h ++
          String.mk (List.replicate 64 '0')) ∧
    buildRevokeData "0xAAAAAAAAAAAAAAAAAAAAAAAAAAAAAAAAAAAAAAAA" =
      "0x095ea7b3000000000000000000000000AAAAAAAAAAAAAAAAAAAAAAAAAAAAAAAAAAAAAAAA0000000000000000000000000000000000000000000000000000000000000000" := by
  constructor
  · intro h hlen
    have hdata : h.data.length = 40 := hlen
    unfold buildRevokeData padStart jsSlice
    apply String.ext
    simp [String.data_append, String.length, hdata]
  · decide

/-- Witness for C4 at the concrete spender of the specification. -/
theorem buildRevokeData_spec_witness :
    ("AAAAAAAAAAAAAAAAAAAAAAAAAAAAAAAAAAAAAAAA" : String).length = 40 ∧
    buildRevokeData ("0x" ++ "AAAAAAAAAAAAAAAAAAAAAAAAAAAAAAAAAAAAAAAA") =
      "0x095ea7b3" ++ String.mk (List.replicate 24 '0') ++
        "AAAAAAAAAAAAAAAAAAAAAAAAAAAAAAAAAAAAAAAA" ++
        String.mk (List.replicate 64 '0') :=
  ⟨by decide, buildRevokeData_spec.1 "AAAAAAAAAAAAAAAAAAAAAAAAAAAAAAAAAAAAAAAA" (by decide)⟩

/-- C5: for every environment in which the spender has no local registry
entry and the external verification call fails, the resolver returns the
pessimistic default profile — name "Unknown Contract", riskLevel "high",
category "Unknown", not verified, not audited.  (The resolver is a total
function of its environment, so no input raises a fatal error.) -/
theorem getSpenderDetails_default_on_failure :
    ∀ (env : SpenderEnv) (spender e : String),
      env.contractDatabase (jsToLower spender) = none →
      env.etherscan spender = Except.error e →
      getSpenderDetails env spender = defaultSpenderDetails spender ∧
      (getSpenderDetails env spender).name = "Unknown Contract" ∧
      (getSpenderDetails env spender).riskLevel = "high" ∧
      (getSpenderDetails env spender).category = "Unknown" ∧
      (getSpenderDetails env spender).isVerified = false ∧
      (getSpenderDetails env spender).audited = false := by
  intro env spender e h1 h2
  simp [getSpenderDetails, h1, h2, defaultSpenderDetails]

/-- A spender environment with an empty local registry and a verification
service whose requests always fail. -/
def failingSpenderEnv : SpenderEnv :=
  { contractDatabase := fun _ => none
    etherscan := fun _ => Except.error "network down" }

/-- Witness for C5 at a concrete spender and failing environment. -/
theorem getSpenderDetails_default_on_failure_witness :
    getSpenderDetails failingSpenderEnv "0xDEADbeef" =
        defaultSpenderDetails "0xDEADbeef" ∧
      (getSpenderDetails failingSpenderEnv "0xDEADbeef").name = "Unknown Contract" ∧
      (getSpenderDetails failingSpenderEnv "0xDEADbeef").riskLevel = "high" ∧
      (getSpenderDetails failingSpenderEnv "0xDEADbeef").category = "Unknown" ∧
      (getSpenderDetails failingSpenderEnv "0xDEADbeef").isVerified = false ∧
      (getSpenderDetails failingSpenderEnv "0xDEADbeef").audited = false :=
  getSpenderDetails_default_on_failure failingSpenderEnv "0xDEADbeef" "network down" rfl rfl

/-- C9: revocation produces calldata only when the connected wallet is the
owner of the approval: with no connected wallet, or a connected address
that differs (as an address, i.e. case-insensitively) from the owner, the
function bails out before any calldata is constructed; when they are the
same address it hands the wallet the `approve(spender, 0)` transaction. -/
theorem revokeApproval_owner_check :
    ∀ (connected tokenAddress spenderAddress walletAddress : String),
      revokeApproval none tokenAddress spenderAddress walletAddress = none ∧
      (jsToLower connected ≠ jsToLower walletAddress →
        revokeApproval (some connected) tokenAddress spenderAddress walletAddress = none) ∧
      (jsToLower connected = jsToLower walletAddress →
        revokeApproval (some connected) tokenAddress spenderAddress walletAddress =
          some { fromAddress := connected
                 toAddress := tokenAddress
                 data := buildRevokeData spenderAddress }) := by
  intro connected tokenAddress spenderAddress walletAddress
  refine ⟨rfl, ?_, ?_⟩ <;> intro h <;> simp [revokeApproval, h]

/-- Witness for C9: a mismatched caller is rejected, a caller equal to the
owner up to case is served. -/
theorem revokeApproval_owner_check_witness :
    revokeApproval (some "0xAbCd") "0xT" "0xS" "0xFFFF" = none ∧
    revokeApproval (some "0xAbCd") "0xT" "0xS" "0xaBcD" =
      some { fromAddress := "0xAbCd"
             toAddress := "0xT"
             data := buildRevokeData "0xS" } :=
  ⟨(revokeApproval_owner_check "0xAbCd" "0xT" "0xS" "0xFFFF").2.1 (by decide),
   (revokeApproval_owner_check "0xAbCd" "0xT" "0xS" "0xaBcD").2.2 (by decide)⟩

/-- A spender environment with an empty registry and a verification service
that responds successfully but with an empty `ContractName` and no source
code. -/
def emptyNameSpenderEnv : SpenderEnv :=
  { contractDatabase := fun _ => none
    etherscan := fun _ => Except.ok (some { ContractName := "", SourceCode := "" }) }

/-- A spender environment with an empty registry and a verification service
whose requests always fail. -/
def downSpenderEnv : SpenderEnv :=
  { contractDatabase := fun _ => none
    etherscan := fun _ => Except.error "service unavailable" }

/-- C10: when the verification service responds successfully but returns no
contract name, the resolver synthesizes a profile named "Unknown Contract"
with riskLevel "unknown" and category "Other" — distinct from the
pessimistic default profile (riskLevel "high", category "Unknown") produced
when the service fails — so two different "Unknown Contract" profiles with
different risk levels are reachable. -/
theorem getSpenderDetails_two_unknown_profiles :
    (getSpenderDetails emptyNameSpenderEnv "0xdead").name = "Unknown Contract" ∧
    (getSpenderDetails emptyNameSpenderEnv "0xdead").riskLevel = "unknown" ∧
    (getSpenderDetails emptyNameSpenderEnv "0xdead").category = "Other" ∧
    (getSpenderDetails downSpenderEnv "0xdead").name = "Unknown Contract" ∧
    (getSpenderDetails downSpenderEnv "0xdead").riskLevel = "high" ∧
    (getSpenderDetails downSpenderEnv "0xdead").category = "Unknown" ∧
    getSpenderDetails emptyNameSpenderEnv "0xdead" ≠ defaultSpenderDetails "0xdead" ∧
    (getSpenderDetails emptyNameSpenderEnv "0xdead").riskLevel ≠
      (getSpenderDetails downSpenderEnv "0xdead").riskLevel := by
  decide

/-- C6: a candidate whose re-queried current allowance is zero is dropped
(the per-candidate closure returns nothing), and every result in the
returned approval list comes from a candidate whose allowance call
succeeded with a strictly positive value. -/
theorem detailedApprovals_allowance_pos :
    ∀ (env : Env) (walletAddress : String),
      (∀ c : Candidate,
        env.allowanceOf c.tokenAddress walletAddress c.spender = Except.ok 0 →
        (processApproval env walletAddress c).1 = none) ∧
      (∀ (candidates : List Candidate) (r : ApprovalResult),
        r ∈ detailedApprovals env walletAddress candidates →
        ∃ c ∈ candidates, ∃ a : Nat,
          env.allowanceOf c.tokenAddress walletAddress c.spender = Except.ok a ∧ 0 < a) := by
  intro env walletAddress
  constructor
  · intro c h
    simp [processApproval, h]
  · intro candidates r hr
    obtain ⟨c, hc, hsome⟩ : ∃ c ∈ candidates, (processApproval env walletAddress c).1 = some r := by
      simpa [detailedApprovals, List.mem_filterMap] using hr
    cases hall : env.allowanceOf c.tokenAddress walletAddress c.spender with
    | error e => simp [processApproval, hall] at hsome
    | ok a =>
      by_cases ha : a > 0
      · exact ⟨c, hc, a, hall, ha⟩
      · simp [processApproval, hall, ha] at hsome

/-- A concrete handler environment for the C6 witness: spender `0xzero`
has a zero current allowance, every other spender an allowance of 5. -/
def envAllowances : Env :=
  { isAddress := fun _ => true
    getLogs := fun _ => Except.ok []
    allowanceOf := fun _ _ spender =>
      if spender = "0xzero" then Except.ok 0 else Except.ok 5
    tokenMeta := fun _ _ => Except.ok { name := "Tok", symbol := "TOK", decimals := 0, balance := 1 }
    spenderEnv :=
      { contractDatabase := fun _ => none
        etherscan := fun _ => Except.error "down" }
    exploitDatabase := fun _ => none }

/-- The zero-allowance candidate of the C6 witness. -/
def zeroCandidate : Candidate := { tokenAddress := "0xtoken", spender := "0xzero" }

/-- The positive-allowance candidate of the C6 witness. -/
def liveCandidate : Candidate := { tokenAddress := "0xtoken", spender := "0xlive" }

/-- Witness for C6: the zero-allowance candidate is dropped, and the result
produced from the positive-allowance candidate traces back to a positive
allowance read. -/
theorem detailedApprovals_allowance_pos_witness :
    (processApproval envAllowances "0xowner" zeroCandidate).1 = none ∧
    (∃ c ∈ [liveCandidate], ∃ a : Nat,
      envAllowances.allowanceOf c.tokenAddress "0xowner" c.spender = Except.ok a ∧ 0 < a) :=
  ⟨(detailedApprovals_allowance_pos envAllowances "0xowner").1 zeroCandidate rfl,
   (detailedApprovals_allowance_pos envAllowances "0xowner").2 [liveCandidate]
     ((detailedApprovals envAllowances "0xowner" [liveCandidate]).head (by decide))
     (List.head_mem _)⟩

/-- C8 (amended): a request whose wallet address is absent or fails address
validation is answered 400 with no external call; a request whose chain
selector is present, nonzero and different from 1 is likewise answered 400
with no external call.  (A chain selector of 0 is falsy in JavaScript, so
`chainId && chainId !== 1` treats it like an absent selector and lets the
request proceed — see the counterexample.) -/
theorem approvalsHandler_validation :
    ∀ (env : Env) (req : ApprovalsRequest),
      ((∀ w, req.walletAddress = some w → env.isAddress w = false) →
        approvalsHandler env req = (ApiResponse.badRequest "Invalid Ethereum address", [])) ∧
      (∀ (w : String) (chainId : Int),
        req.walletAddress = some w → w ≠ "" → env.isAddress w = true →
        req.chainId = some chainId → chainId ≠ 0 → chainId ≠ 1 →
        approvalsHandler env req =
          (ApiResponse.badRequest "Currently only Ethereum mainnet is supported", [])) := by
  intro env req
  constructor
  · intro h
    match hw : req.walletAddress with
    | none => simp [approvalsHandler, hw]
    | some w =>
      have := h w hw
      simp [approvalsHandler, hw, this]
  · intro w chainId hw hne hval hchain h0 h1
    simp [approvalsHandler, hw, hne, hval, hchain, h0, h1]

/-- A permissive environment used by the C8 witness and counterexample. -/
def openEnv : Env :=
  { isAddress := fun _ => true
    getLogs := fun _ => Except.ok []
    allowanceOf := fun _ _ _ => Except.ok 0
    tokenMeta := fun _ _ => Except.error "unused"
    spenderEnv :=
      { contractDatabase := fun _ => none
        etherscan := fun _ => Except.error "unused" }
    exploitDatabase := fun _ => none }

/-- A rejecting environment whose address validation always fails. -/
def rejectEnv : Env :=
  { openEnv with isAddress := fun _ => false }

/-- Witness for C8: a malformed address and a chain selector of 5 are both
rejected with HTTP 400 and an empty external-call trace. -/
theorem approvalsHandler_validation_witness :
    approvalsHandler rejectEnv { walletAddress := some "not-an-address", chainId := none } =
      (ApiResponse.badRequest "Invalid Ethereum address", []) ∧
    approvalsHandler openEnv { walletAddress := some "0xgood", chainId := some 5 } =
      (ApiResponse.badRequest "Currently only Ethereum mainnet is supported", []) :=
  ⟨(approvalsHandler_validation rejectEnv _).1 (fun w hw => by cases hw; rfl),
   (approvalsHandler_validation openEnv _).2 "0xgood" 5 rfl (by decide) rfl rfl
     (by decide) (by decide)⟩

/-- Counterexample to C8 as stated: `chainId: 0` does not match the single
supported chain (1), yet the request is not rejected — the handler proceeds
to the log query, because `chainId && chainId !== 1` short-circuits on the
falsy number 0. -/
theorem approvalsHandler_chainId_zero_counterexample :
    ({ walletAddress := some "0xabc", chainId := some 0 } : ApprovalsRequest).chainId =
        some 0 ∧
    (0 : Int) ≠ 1 ∧
    approvalsHandler openEnv { walletAddress := some "0xabc", chainId := some 0 } =
      (ApiResponse.ok 0 [], [ExtCall.logQuery "0xabc"]) := by
  refine ⟨rfl, by decide, ?_⟩
  rfl

/-- Membership in `mapSet m k v` is the inserted pair or an original pair. -/
theorem mapSet_mem {m : List (String × Candidate)} {k : String} {v : Candidate}
    {p : String × Candidate} (hp : p ∈ mapSet m k v) : p = (k, v) ∨ p ∈ m := by
  induction m with
  | nil => simpa [mapSet] using hp
  | cons q rest ih =>
    obtain ⟨k0, v0⟩ := q
    by_cases hk : k0 = k
    · simp [mapSet, hk] at hp
      rcases hp with h | h
      · exact Or.inl (by simp [h])
      · exact Or.inr (List.mem_cons_of_mem _ h)
    · simp [mapSet, hk] at hp
      rcases hp with h | h
      · exact Or.inr (by simp [h])
      · rcases ih h with h2 | h2
        · exact Or.inl h2
        · exact Or.inr (List.mem_cons_of_mem _ h2)

/-- The operation `mapSet` keeps the key list unchanged when the key is present and
appends it otherwise. -/
theorem mapSet_map_fst (m : List (String × Candidate)) (k : String) (v : Candidate) :
    (mapSet m k v).map Prod.fst =
      if k ∈ m.map Prod.fst then m.map Prod.fst else m.map Prod.fst ++ [k] := by
  induction m with
  | nil => simp [mapSet]
  | cons q rest ih =>
    obtain ⟨k0, v0⟩ := q
    by_cases hk : k0 = k
    · simp [mapSet, hk]
    · have hne : ¬ k = k0 := fun h => hk h.symm
      simp [mapSet, hk, ih, hne]
      by_cases hmem : k ∈ rest.map Prod.fst <;> simp [hmem, hne]

/-- The operation `mapSet` preserves distinctness of the keys. -/
theorem mapSet_keys_nodup {m : List (String × Candidate)} (k : String) (v : Candidate)
    (h : (m.map Prod.fst).Nodup) : ((mapSet m k v).map Prod.fst).Nodup := by
  rw [mapSet_map_fst]
  by_cases hmem : k ∈ m.map Prod.fst
  · simpa [hmem] using h
  · simp [hmem, List.nodup_append, h]

/-- The deduplication loop preserves distinctness of the map keys. -/
theorem scanLogsAux_keys_nodup (logs : List LogEntry) :
    ∀ m : List (String × Candidate), (m.map Prod.fst).Nodup →
      ((scanLogsAux m logs).map Prod.fst).Nodup := by
  induction logs with
  | nil => intro m h; simpa [scanLogsAux] using h
  | cons log rest ih =>
    intro m h
    refine ih (scanStep m log) ?_
    unfold scanStep
    cases log.parsedSpender with
    | none => exact h
    | some s => exact mapSet_keys_nodup _ _ h

/-- Every map entry is keyed by the template-literal key of its own
candidate. -/
theorem scanLogsAux_key_inv (logs : List LogEntry) :
    ∀ m : List (String × Candidate),
      (∀ p ∈ m, p.1 = approvalKey p.2.tokenAddress p.2.spender) →
      ∀ p ∈ scanLogsAux m logs, p.1 = approvalKey p.2.tokenAddress p.2.spender := by
  induction logs with
  | nil => intro m h; simpa [scanLogsAux] using h
  | cons log rest ih =>
    intro m h
    refine ih (scanStep m log) ?_
    intro p hp
    unfold scanStep at hp
    cases hps : log.parsedSpender with
    | none => rw [hps] at hp; exact h p hp
    | some s =>
      rw [hps] at hp
      rcases mapSet_mem hp with h2 | h2
      · subst h2; rfl
      · exact h p h2

/-- Every map entry comes from the starting map or from a parsed log. -/
theorem scanLogsAux_prov (logs : List LogEntry) :
    ∀ m : List (String × Candidate), ∀ p ∈ scanLogsAux m logs,
      p ∈ m ∨ ∃ log ∈ logs, ∃ s, log.parsedSpender = some s ∧
        p.2 = Candidate.mk log.address s := by
  induction logs with
  | nil => intro m p hp; exact Or.inl (by simpa [scanLogsAux] using hp)
  | cons log rest ih =>
    intro m p hp
    rcases ih (scanStep m log) p hp with h | h
    · unfold scanStep at h
      cases hps : log.parsedSpender with
      | none => rw [hps] at h; exact Or.inl h
      | some s =>
        rw [hps] at h
        rcases mapSet_mem h with h2 | h2
        · exact Or.inr ⟨log, List.mem_cons_self _ _, s, hps, by rw [h2]⟩
        · exact Or.inl h2
    · obtain ⟨l, hl, s, hs, hp2⟩ := h
      exact Or.inr ⟨l, List.mem_cons_of_mem _ hl, s, hs, hp2⟩

/-- Distinct keys that each determine their value force distinct values. -/
theorem pairs_snd_nodup (m : List (String × Candidate))
    (h1 : (m.map Prod.fst).Nodup)
    (h2 : ∀ p ∈ m, p.1 = approvalKey p.2.tokenAddress p.2.spender) :
    (m.map Prod.snd).Nodup := by
  have hmap : m.map Prod.fst =
      (m.map Prod.snd).map (fun c => approvalKey c.tokenAddress c.spender) := by
    rw [List.map_map]
    exact List.map_congr_left h2
  rw [hmap] at h1
  exact h1.of_map _

/-- The key just inserted by `mapSet` is present afterwards. -/
theorem mem_keys_mapSet_self (m : List (String × Candidate)) (k : String) (v : Candidate) :
    k ∈ (mapSet m k v).map Prod.fst := by
  rw [mapSet_map_fst]
  by_cases hmem : k ∈ m.map Prod.fst <;> simp [hmem]

/-- The operation `mapSet` never removes a key. -/
theorem mem_keys_mapSet_mono {m : List (String × Candidate)} {k : String}
    (k2 : String) (v : Candidate) (h : k ∈ m.map Prod.fst) :
    k ∈ (mapSet m k2 v).map Prod.fst := by
  rw [mapSet_map_fst]
  by_cases hmem : k2 ∈ m.map Prod.fst <;> simp [hmem, h]

/-- The deduplication loop never removes a key. -/
theorem mem_keys_scanLogsAux_mono (logs : List LogEntry) :
    ∀ m : List (String × Candidate), ∀ k, k ∈ m.map Prod.fst →
      k ∈ (scanLogsAux m logs).map Prod.fst := by
  induction logs with
  | nil => intro m k h; simpa [scanLogsAux] using h
  | cons log rest ih =>
    intro m k h
    refine ih (scanStep m log) k ?_
    unfold scanStep
    cases log.parsedSpender with
    | none => exact h
    | some s => exact mem_keys_mapSet_mono _ _ h

/-- A parsed approval event leaves its key in the final map. -/
theorem event_key_mem (logs : List LogEntry) :
    ∀ m : List (String × Candidate), ∀ t s : String,
      (∃ log ∈ logs, log.address = t ∧ log.parsedSpender = some s) →
      approvalKey t s ∈ (scanLogsAux m logs).map Prod.fst := by
  induction logs with
  | nil => intro m t s h; simp at h
  | cons log rest ih =>
    intro m t s h
    rcases h with ⟨l, hl, ht, hs⟩
    rcases List.mem_cons.1 hl with rfl | hl2
    · refine mem_keys_scanLogsAux_mono rest (scanStep m l) _ ?_
      unfold scanStep
      rw [hs, ht]
      exact mem_keys_mapSet_self _ _ _
    · exact ih (scanStep m log) t s ⟨l, hl2, ht, hs⟩

/-- Splitting a character list at a separator absent from both prefixes is
unambiguous. -/
theorem append_dash_inj : ∀ (a b : List Char) {s t : List Char},
    ('-' : Char) ∉ a → ('-' : Char) ∉ b →
    a ++ '-' :: s = b ++ '-' :: t → a = b ∧ s = t := by
  intro a
  induction a with
  | nil =>
    intro b s t _ hb heq
    cases b with
    | nil => simpa using heq
    | cons c bs =>
      exfalso
      simp at heq
      exact hb (heq.1 ▸ List.mem_cons_self _ _)
  | cons c as ih =>
    intro b s t ha hb heq
    cases b with
    | nil =>
      exfalso
      simp at heq
      exact ha (heq.1 ▸ List.mem_cons_self _ _)
    | cons d bs =>
      simp at heq
      obtain ⟨rfl, heq2⟩ := heq
      have ha2 : ('-' : Char) ∉ as := fun h => ha (List.mem_cons_of_mem _ h)
      have hb2 : ('-' : Char) ∉ bs := fun h => hb (List.mem_cons_of_mem _ h)
      obtain ⟨rfl, rfl⟩ := ih bs ha2 hb2 heq2
      exact ⟨rfl, rfl⟩

/-- On token addresses free of the dash separator (Ethereum hex addresses
are), the template-literal key is injective in the (token, spender) pair. -/
theorem approvalKey_inj {t u s v : String}
    (ht : ('-' : Char) ∉ t.data) (hu : ('-' : Char) ∉ u.data)
    (heq : approvalKey t s = approvalKey u v) : t = u ∧ s = v := by
  have hdata : t.data ++ '-' :: s.data = u.data ++ '-' :: v.data := by
    have := congrArg String.data heq
    simpa [approvalKey, String.data_append] using this
  obtain ⟨h1, h2⟩ := append_dash_inj t.data u.data ht hu hdata
  exact ⟨String.ext h1, String.ext h2⟩

/-- C7: the candidate set built from the approval logs contains no duplicate
candidates, and — provided the token addresses contain no dash, as hex
chain addresses do — any number of granting events for the same
(tokenAddress, spenderAddress) pair collapse to exactly one candidate. -/
theorem scanLogs_dedup :
    ∀ logs : List LogEntry,
      ((scanLogs logs).map Prod.snd).Nodup ∧
      (∀ t s : String,
        (∀ log ∈ logs, ('-' : Char) ∉ log.address.data) →
        (∃ log ∈ logs, log.address = t ∧ log.parsedSpender = some s) →
        ((scanLogs logs).map Prod.snd).count ⟨t, s⟩ = 1) := by
  intro logs
  have hkeys : ((scanLogs logs).map Prod.fst).Nodup :=
    scanLogsAux_keys_nodup logs [] (by simp)
  have hinv : ∀ p ∈ scanLogs logs, p.1 = approvalKey p.2.tokenAddress p.2.spender :=
    scanLogsAux_key_inv logs [] (by simp)
  have hnodup : ((scanLogs logs).map Prod.snd).Nodup := pairs_snd_nodup _ hkeys hinv
  refine ⟨hnodup, ?_⟩
  intro t s hdash hev
  have hkey : approvalKey t s ∈ (scanLogs logs).map Prod.fst :=
    event_key_mem logs [] t s hev
  obtain ⟨p, hp, hpk⟩ := List.mem_map.1 hkey
  rcases scanLogsAux_prov logs [] p hp with h | ⟨log, hlog, s2, hs2, hp2⟩
  · simp at h
  · have htok : ('-' : Char) ∉ p.2.tokenAddress.data := by
      rw [hp2]; exact hdash log hlog
    have htf : ('-' : Char) ∉ t.data := by
      obtain ⟨l2, hl2, ht2, _⟩ := hev
      rw [← ht2]; exact hdash l2 hl2
    have hkeyeq : approvalKey p.2.tokenAddress p.2.spender = approvalKey t s := by
      rw [← hinv p hp, hpk]
    obtain ⟨h1, h2⟩ := approvalKey_inj htok htf hkeyeq
    have hpts : p.2 = ⟨t, s⟩ := by rw [← h1, ← h2]
    have hmem : (⟨t, s⟩ : Candidate) ∈ (scanLogs logs).map Prod.snd :=
      hpts ▸ List.mem_map_of_mem Prod.snd hp
    exact List.count_eq_one_of_mem hnodup hmem

/-- A log list with two granting events for the same (token, spender) pair
and one unparseable log in between. -/
def dupLogs : List LogEntry :=
  [ { address := "0xT", parsedSpender := some "0xS" },
    { address := "0xT", parsedSpender := none },
    { address := "0xT", parsedSpender := some "0xS" } ]

/-- Witness for C7: the duplicated (token, spender) pair yields exactly one
candidate. -/
theorem scanLogs_dedup_witness :
    ((scanLogs dupLogs).map Prod.snd).count ⟨"0xT", "0xS"⟩ = 1 :=
  (scanLogs_dedup dupLogs).2 "0xT" "0xS" (by decide) (by decide)

end ApprovalGuard
